import Mathlib

/-!
Verification development for the tool-calling orchestration engine exercised by
`src/src/screens/ToolCallingScreen.tsx`.  The screen itself is UI plumbing; the
engine (`RunAnywhere.parseToolCall`, `registerTool`, `clearTools`,
`generateWithTools`) lives in the external `@runanywhere/core` package whose
implementation is not part of this repository, so those components are modelled
from the specification.  The demo tool schemas (`DEMO_TOOLS`) and the mock
executors (`mockCalculate` etc.) are embedded from the source file directly.

Strings are modelled as `List Char`; JSON values as the inductive `Json`
(integers only for numbers — the payloads relevant here contain only strings
and nested objects).
-/

namespace ToolCalling

/-- JSON-ish values.  Numbers are modelled as integers; the tool-call payloads
appearing in this repository contain only strings and nested objects. -/
inductive Json where
  | jnull : Json
  | jbool : Bool → Json
  | jnum : Int → Json
  | jstr : List Char → Json
  | jarr : List Json → Json
  | jobj : List (List Char × Json) → Json

/-- A candidate tool invocation extracted from model text (data model §3):
`{ toolName, arguments }`, not yet validated. -/
structure ToolCall where
  toolName : List Char
  arguments : List (List Char × Json)

/-- Parser result (data model §3): the extracted call, if any, and the residual
human-readable text with the tool-call markup removed. -/
structure ParsedOutput where
  toolCall : Option ToolCall
  text : List Char

/-- Drop leading and trailing whitespace, as JavaScript `String.trim`. -/
def trim (l : List Char) : List Char :=
  ((l.dropWhile Char.isWhitespace).reverse.dropWhile Char.isWhitespace).reverse

/-- Split a text at the first occurrence of `pat`, returning the part before
the occurrence and the part after it, or `none` when `pat` does not occur. -/
def splitOnFirst (pat : List Char) : List Char → Option (List Char × List Char)
  | [] => if pat.isPrefixOf ([] : List Char) then some ([], []) else none
  | c :: cs =>
    if pat.isPrefixOf (c :: cs) then some ([], (c :: cs).drop pat.length)
    else (splitOnFirst pat cs).map (fun p => (c :: p.1, p.2))

/-- Skip leading JSON whitespace. -/
def skipWs (s : List Char) : List Char := s.dropWhile Char.isWhitespace

/-- Decode one JSON string escape character. -/
def escChar (c : Char) : Option Char :=
  if c = '"' then some '"'
  else if c = '\\' then some '\\'
  else if c = '/' then some '/'
  else if c = 'n' then some '\n'
  else if c = 't' then some '\t'
  else if c = 'r' then some '\r'
  else if c = 'b' then some (Char.ofNat 8)
  else if c = 'f' then some (Char.ofNat 12)
  else none

/-- Parse the body of a JSON string after the opening quote; returns the
decoded characters and the remaining input after the closing quote. -/
def parseStringBody : Nat → List Char → Option (List Char × List Char)
  | 0, _ => none
  | _ + 1, [] => none
  | fuel + 1, c :: cs =>
    if c = '"' then some ([], cs)
    else if c = '\\' then
      match cs with
      | [] => none
      | e :: cs2 =>
        match escChar e with
        | none => none
        | some d => (parseStringBody fuel cs2).map (fun p => (d :: p.1, p.2))
    else (parseStringBody fuel cs).map (fun p => (c :: p.1, p.2))

/-- Digits of a decimal numeral folded into a natural number. -/
def digitsToNat (ds : List Char) : Nat :=
  ds.foldl (fun a c => a * 10 + (c.toNat - 48)) 0

/-- Parse a JSON integer (optional minus sign followed by digits). -/
def parseInt : List Char → Option (Int × List Char)
  | '-' :: rest =>
    let ds := rest.takeWhile Char.isDigit
    if ds = [] then none
    else some (-(digitsToNat ds : Int), rest.dropWhile Char.isDigit)
  | s =>
    let ds := s.takeWhile Char.isDigit
    if ds = [] then none
    else some ((digitsToNat ds : Int), s.dropWhile Char.isDigit)

mutual

/-- Parse one JSON value (fuel-bounded recursive descent). -/
def parseValue : Nat → List Char → Option (Json × List Char)
  | 0, _ => none
  | fuel + 1, s =>
    match skipWs s with
    | [] => none
    | c :: cs =>
      if c = '"' then
        (parseStringBody fuel cs).map (fun p => (Json.jstr p.1, p.2))
      else if c = '{' then
        match skipWs cs with
        | '}' :: rest => some (Json.jobj [], rest)
        | s2 => parseMembers fuel s2 []
      else if c = '[' then
        match skipWs cs with
        | ']' :: rest => some (Json.jarr [], rest)
        | s2 => parseElems fuel s2 []
      else if ("true".data).isPrefixOf (c :: cs) then
        some (Json.jbool true, (c :: cs).drop 4)
      else if ("false".data).isPrefixOf (c :: cs) then
        some (Json.jbool false, (c :: cs).drop 5)
      else if ("null".data).isPrefixOf (c :: cs) then
        some (Json.jnull, (c :: cs).drop 4)
      else
        (parseInt (c :: cs)).map (fun p => (Json.jnum p.1, p.2))

/-- Parse the members of a JSON object, positioned at a key; `acc` holds the
members already read. -/
def parseMembers : Nat → List Char → List (List Char × Json) →
    Option (Json × List Char)
  | 0, _, _ => none
  | fuel + 1, s, acc =>
    match skipWs s with
    | '"' :: cs =>
      match parseStringBody fuel cs with
      | none => none
      | some (key, rest) =>
        match skipWs rest with
        | ':' :: rest2 =>
          match parseValue fuel rest2 with
          | none => none
          | some (v, rest3) =>
            match skipWs rest3 with
            | ',' :: rest4 => parseMembers fuel rest4 (acc ++ [(key, v)])
            | '}' :: rest4 => some (Json.jobj (acc ++ [(key, v)]), rest4)
            | _ => none
        | _ => none
    | _ => none

/-- Parse the elements of a JSON array, positioned at a value. -/
def parseElems : Nat → List Char → List Json → Option (Json × List Char)
  | 0, _, _ => none
  | fuel + 1, s, acc =>
    match parseValue fuel s with
    | none => none
    | some (v, rest) =>
      match skipWs rest with
      | ',' :: rest2 => parseElems fuel rest2 (acc ++ [v])
      | ']' :: rest2 => some (Json.jarr (acc ++ [v]), rest2)
      | _ => none

end

/-- Parse a complete JSON document: one value with only whitespace around. -/
def parseJson (s : List Char) : Option Json :=
  match parseValue (2 * s.length + 2) s with
  | some (v, rest) => if skipWs rest = [] then some v else none
  | none => none

/-- Last-occurrence field lookup in a decoded JSON object, matching the
last-key-wins behaviour of standard JSON decoding. -/
def lookupField (fields : List (List Char × Json)) (key : List Char) :
    Option Json :=
  ((fields.reverse).find? (fun f => f.1 = key)).map (fun f => f.2)

/-- Modelled from the spec (§4.2, §6): decoding of the marker payload, part of
the `@runanywhere/core` ToolCallParser whose implementation is not in this
repository.  The payload must decode to a JSON object with a string `name`;
`arguments` is the embedded object when present (otherwise empty), passed
through unmodified. -/
def decodeToolCall (payload : List Char) : Option ToolCall :=
  match parseJson payload with
  | some (Json.jobj fields) =>
    match lookupField fields ("name".data) with
    | some (Json.jstr n) =>
      some { toolName := n,
             arguments :=
               match lookupField fields ("arguments".data) with
               | some (Json.jobj args) => args
               | _ => [] }
    | _ => none
  | _ => none

/-- The opening marker of the embedded tool-call wire format (§6), as used by
the in-repo sample in `handleParseSample`. -/
def TOOL_OPEN : List Char := "<tool_call>".data

/-- The closing marker of the embedded tool-call wire format (§6). -/
def TOOL_CLOSE : List Char := "</tool_call>".data

/-- Modelled from the spec (§4.2): the `@runanywhere/core` ToolCallParser,
whose implementation is not in this repository.  It locates the first
well-formed marker pair, decodes the enclosed payload, and excises the matched
region from the returned text; when no pair is found or the payload fails to
decode it fails soft, returning the trimmed input unchanged with no call. -/
def parseToolCall (input : List Char) : ParsedOutput :=
  match splitOnFirst TOOL_OPEN input with
  | none => { toolCall := none, text := trim input }
  | some (pre, rest) =>
    match splitOnFirst TOOL_CLOSE rest with
    | none => { toolCall := none, text := trim input }
    | some (payload, post) =>
      match decodeToolCall payload with
      | none => { toolCall := none, text := trim input }
      | some tc => { toolCall := some tc, text := trim (pre ++ post) }

/-- Parameter types recognized by the demo schemas (data model §3). -/
inductive ParamType where
  | string : ParamType
  | number : ParamType
  | boolean : ParamType
deriving DecidableEq

/-- A tool parameter (data model §3), embedding the shape used by `DEMO_TOOLS`
in the source: name, advisory type, description, required flag, optional
default, optional enum of allowed string values (the demo enums are strings,
and the spec singles out case-sensitive string-enum comparison). -/
structure ToolParameter where
  name : List Char
  type : ParamType
  description : List Char
  required : Bool
  defaultValue : Option Json := none
  enum : Option (List (List Char)) := none

/-- A tool schema (source name `ToolDefinition`): name, description and an
ordered sequence of parameters. -/
structure ToolDefinition where
  name : List Char
  description : List Char
  parameters : List ToolParameter

/-- Validation failure taxonomy (§4.3, §7). -/
inductive ValidationError where
  | MissingRequiredArgument (parameterName : List Char)
  | InvalidEnumValue (parameterName : List Char) (value : Json)
      (allowed : List (List Char))
  | TypeMismatch (parameterName : List Char) (value : Json)

/-- First-match lookup of an argument by name in a raw arguments mapping. -/
def lookupArg (args : List (List Char × Json)) (name : List Char) :
    Option Json :=
  (args.find? (fun a => decide (a.1 = name))).map (fun a => a.2)

/-- Membership of a value in a declared string enum: the value must be a
string equal (case-sensitively) to one of the members. -/
def enumOk (allowed : List (List Char)) : Json → Bool
  | Json.jstr s => allowed.contains s
  | _ => false

/-- Decimal rendering of an integer. -/
def renderInt (n : Int) : List Char := (toString n).data

/-- Modelled from the spec (§4.3): best-effort type coercion performed by the
`@runanywhere/core` ArgumentValidator (not in this repository).  Coercion
succeeds on matching types and on standard renderings (numeric-looking
strings to numbers, scalars to strings); otherwise it is impossible. -/
def coerce : ParamType → Json → Option Json
  | ParamType.string, Json.jstr s => some (Json.jstr s)
  | ParamType.string, Json.jnum n => some (Json.jstr (renderInt n))
  | ParamType.string, Json.jbool b =>
    some (Json.jstr (if b then ("true").data else ("false").data))
  | ParamType.number, Json.jnum n => some (Json.jnum n)
  | ParamType.number, Json.jstr s =>
    (parseInt s).bind (fun p => if p.2 = [] then some (Json.jnum p.1) else none)
  | ParamType.boolean, Json.jbool b => some (Json.jbool b)
  | ParamType.boolean, Json.jstr s =>
    if s = ("true").data then some (Json.jbool true)
    else if s = ("false").data then some (Json.jbool false)
    else none
  | _, _ => none

/-- Modelled from the spec (§4.3): the per-value checks the ArgumentValidator
applies to a provided or defaulted value — enum membership first (case
sensitive), then best-effort type coercion. -/
def checkValue (p : ToolParameter) (v : Json) :
    Except ValidationError (Option (List Char × Json)) :=
  match p.enum with
  | some allowed =>
    if enumOk allowed v then
      match coerce p.type v with
      | some v2 => Except.ok (some (p.name, v2))
      | none => Except.error (ValidationError.TypeMismatch p.name v)
    else Except.error (ValidationError.InvalidEnumValue p.name v allowed)
  | none =>
    match coerce p.type v with
    | some v2 => Except.ok (some (p.name, v2))
    | none => Except.error (ValidationError.TypeMismatch p.name v)

/-- Modelled from the spec (§4.3): validation of one declared parameter of the
`@runanywhere/core` ArgumentValidator (not in this repository).  Absent and
required fails with `MissingRequiredArgument`; absent and not required
substitutes the default when present (which then undergoes the value checks)
and otherwise stays absent; a present value undergoes the value checks. -/
def validateParam (p : ToolParameter) (args : List (List Char × Json)) :
    Except ValidationError (Option (List Char × Json)) :=
  match lookupArg args p.name with
  | some v => checkValue p v
  | none =>
    if p.required then Except.error (ValidationError.MissingRequiredArgument p.name)
    else
      match p.defaultValue with
      | some d => checkValue p d
      | none => Except.ok none

/-- Validation of the declared parameters in declaration order, collecting the
normalized present parameters and stopping at the first failure. -/
def validateDeclared : List ToolParameter → List (List Char × Json) →
    Except ValidationError (List (List Char × Json))
  | [], _ => Except.ok []
  | p :: ps, args =>
    match validateParam p args with
    | Except.error e => Except.error e
    | Except.ok none => validateDeclared ps args
    | Except.ok (some kv) => (validateDeclared ps args).map (fun r => kv :: r)

/-- The declared parameter names of a schema parameter list. -/
def declaredNames (params : List ToolParameter) : List (List Char) :=
  params.map (fun p => p.name)

/-- Modelled from the spec (§4.3): the `@runanywhere/core` ArgumentValidator
(not in this repository).  Produces the normalized mapping for the declared
parameters followed by the unrecognized argument keys passed through without
error, or the first validation failure. -/
def validateArgs (params : List ToolParameter) (args : List (List Char × Json)) :
    Except ValidationError (List (List Char × Json)) :=
  (validateDeclared params args).map
    (fun normalized =>
      normalized ++ args.filter (fun a => !((declaredNames params).contains a.1)))

/-- Outcome of invoking a registered executor: the resolved mapping, or the
message of a raised/rejected failure. -/
inductive ExecOutcome where
  | success (result : List (List Char × Json))
  | failure (error : List Char)

/-- An executor function registered with a schema (data model §3). -/
def Executor : Type := List (List Char × Json) → ExecOutcome

/-- The tool registry state: the registrations, each owning a schema and an
executor (data model §3). -/
def Registry : Type := List (ToolDefinition × Executor)

/-- Modelled from the spec (§4.1): `RunAnywhere.clearTools` of
`@runanywhere/core` (not in this repository) — removes all entries. -/
def clearTools (_reg : Registry) : Registry := []

/-- Modelled from the spec (§4.1): `RunAnywhere.registerTool` of
`@runanywhere/core` (not in this repository) — inserts or replaces the entry
for `schema.name`, with no error on overwrite. -/
def registerTool (reg : Registry) (schema : ToolDefinition) (ex : Executor) :
    Registry :=
  (schema, ex) :: reg.filter (fun r => !(decide (r.1.name = schema.name)))

/-- Modelled from the spec (§4.1): registry lookup by name — a pure read. -/
def lookupTool (reg : Registry) (name : List Char) :
    Option (ToolDefinition × Executor) :=
  reg.find? (fun r => decide (r.1.name = name))

/-- A record that a registered executor function was actually applied, and to
which normalized arguments; used to state that the orchestrator never invokes
executors beyond the call budget. -/
structure Invocation where
  toolName : List Char
  arguments : List (List Char × Json)

/-- A ToolResult (data model §3): `result` present iff success, `error`
present iff not. -/
structure ToolResult where
  toolName : List Char
  success : Bool
  result : Option (List (List Char × Json)) := none
  error : Option (List Char) := none

/-- Human-readable rendering of a validation failure, surfaced inside a failed
ToolResult (§7: ValidationFailure is not thrown). -/
def renderError : ValidationError → List Char
  | ValidationError.MissingRequiredArgument p =>
    ("Missing required argument: ").data ++ p
  | ValidationError.InvalidEnumValue p _ _ =>
    ("Invalid enum value for ").data ++ p
  | ValidationError.TypeMismatch p _ =>
    ("Type mismatch for ").data ++ p

/-- Modelled from the spec (§4.3, §4.4, §7): one validated execution of a
parsed call through the `@runanywhere/core` ToolExecutor (not in this
repository).  Lookup and validation failures, and executor failures, all
degrade into a failed ToolResult — nothing is thrown.  The returned list
records whether the registered executor function itself was applied. -/
def runCall (reg : Registry) (tc : ToolCall) : ToolResult × List Invocation :=
  match lookupTool reg tc.toolName with
  | none =>
    ({ toolName := tc.toolName, success := false,
       error := some (("Tool not found: ").data ++ tc.toolName) }, [])
  | some (schema, ex) =>
    match validateArgs schema.parameters tc.arguments with
    | Except.error e =>
      ({ toolName := tc.toolName, success := false,
         error := some (renderError e) }, [])
    | Except.ok nargs =>
      match ex nargs with
      | ExecOutcome.success m =>
        ({ toolName := tc.toolName, success := true, result := some m },
         [{ toolName := tc.toolName, arguments := nargs }])
      | ExecOutcome.failure msg =>
        ({ toolName := tc.toolName, success := false, error := some msg },
         [{ toolName := tc.toolName, arguments := nargs }])

/-- The one abnormal-termination class (§7): the opaque model invocation
itself failed. -/
inductive ModelError where
  | failure (message : List Char)

/-- The opaque model: maps the running context (prompt, serialized schemas,
appended tool results) to generated text, or fails. -/
def ModelFn : Type := List (List Char) → Except ModelError (List Char)

/-- Opaque textual encoding of a tool result appended to the model context
(§4.5); its exact shape is irrelevant to every theorem below, which quantify
over the model. -/
def renderResult (tr : ToolResult) : List Char :=
  tr.toolName ++ (": ").data ++
    (match tr.error with
     | some e => e
     | none => ("ok").data)

/-- The result of one orchestration (data model §3). -/
structure ToolCallingResult where
  text : List Char
  toolCalls : List ToolCall
  toolResults : List ToolResult

/-- Configuration recognized by `generateWithTools` (§6).  `temperature` and
`maxTokens` are forwarded to the model with no effect on this layer; the model
is already an opaque function here, so only `maxTokens` is kept as an opaque
field. -/
structure ToolCallingConfig where
  tools : List ToolDefinition
  maxToolCalls : Nat
  autoExecute : Bool
  maxTokens : Nat := 512

/-- Opaque serialization of the registered tool schemas into the model
context (§4.5). -/
def renderTools (tools : List ToolDefinition) : List Char :=
  (tools.map (fun t => t.name)).foldr (fun a b => a ++ (" ").data ++ b) []

/-- Modelled from the spec (§4.5): the orchestration loop of
`@runanywhere/core.generateWithTools` (not in this repository).  Each round
invokes the model (a failure propagates — ModelInvocationFailure), parses the
output; with a parsed call, a positive budget and autoExecute it validates and
executes the call, appends the call and its result, feeds the result back and
loops; with autoExecute off the observed call is returned unexecuted; with the
budget exhausted it finalizes degraded, with the residual text. -/
def orchestrate (model : ModelFn) (reg : Registry) (auto : Bool) :
    Nat → List (List Char) → List ToolCall → List ToolResult →
    List Invocation → Except ModelError (ToolCallingResult × List Invocation)
  | budget, ctx, accC, accR, accT =>
    match model ctx with
    | Except.error e => Except.error e
    | Except.ok out =>
      match parseToolCall out with
      | { toolCall := none, text := txt } =>
        Except.ok ({ text := txt, toolCalls := accC, toolResults := accR }, accT)
      | { toolCall := some tc, text := txt } =>
        match budget with
        | 0 =>
          Except.ok ({ text := txt, toolCalls := accC, toolResults := accR }, accT)
        | b + 1 =>
          if auto then
            orchestrate model reg auto b
              (ctx ++ [renderResult (runCall reg tc).1])
              (accC ++ [tc]) (accR ++ [(runCall reg tc).1])
              (accT ++ (runCall reg tc).2)
          else
            Except.ok
              ({ text := txt, toolCalls := accC ++ [tc], toolResults := accR }, accT)

/-- Modelled from the spec (§4.5, §6): `RunAnywhere.generateWithTools` of
`@runanywhere/core` (not in this repository) — runs the orchestration loop
from an initial context holding the serialized schemas and the prompt, with
empty accumulators and the configured budget. -/
def generateWithTools (model : ModelFn) (reg : Registry) (prompt : List Char)
    (config : ToolCallingConfig) :
    Except ModelError (ToolCallingResult × List Invocation) :=
  orchestrate model reg config.autoExecute config.maxToolCalls
    [renderTools config.tools, prompt] [] [] []

/-- JavaScript truthiness on the modelled values (`NaN` is not representable;
the demo code never produces it on this path). -/
def jsTruthy : Json → Bool
  | Json.jnull => false
  | Json.jbool b => b
  | Json.jnum n => decide (n ≠ 0)
  | Json.jstr s => decide (s ≠ [])
  | Json.jarr _ => true
  | Json.jobj _ => true

/-- The characters kept by the sanitizer regex of `mockCalculate`
(`[^0-9+\-*/().% ]` removed). -/
def isCalcChar (c : Char) : Bool :=
  c.isDigit || c = '+' || c = '-' || c = '*' || c = '/' || c = '(' ||
    c = ')' || c = '.' || c = '%' || c = ' '

/-- Embedded from `src/src/screens/ToolCallingScreen.tsx` lines 90-100
(`mockCalculate`).  `evalFn` models the composite
`Number(Function("use strict; return (...)")())` applied to the sanitized
expression — an opaque JavaScript evaluation that may throw (`none`).  The
`const expr = (args.expression as string) || '0'` line sits outside the
`try` but cannot throw (property access and truthiness test are total); a
non-string truthy `expression` value makes `expr.replace` inside the `try`
throw, which the `catch` turns into the same error mapping. -/
def mockCalculate (evalFn : List Char → Option Json)
    (args : List (List Char × Json)) : List (List Char × Json) :=
  let expr : Json :=
    match lookupArg args (("expression").data) with
    | some v => if jsTruthy v then v else Json.jstr (("0").data)
    | none => Json.jstr (("0").data)
  match expr with
  | Json.jstr s =>
    match evalFn (s.filter isCalcChar) with
    | some v => [((("expression").data), Json.jstr s), ((("result").data), v)]
    | none =>
      [((("expression").data), Json.jstr s),
       ((("error").data), Json.jstr (("Could not evaluate expression").data))]
  | other =>
    [((("expression").data), other),
     ((("error").data), Json.jstr (("Could not evaluate expression").data))]

/-- `mockCalculate` as a registered executor: the promise it returns always
resolves (every throw inside the body is caught), so the executor outcome is
always a success carrying the computed mapping. -/
def mockCalculateExec (evalFn : List Char → Option Json) : Executor :=
  fun args => ExecOutcome.success (mockCalculate evalFn args)

/-- Embedded from src lines 28-47: the `get_weather` demo schema — required
string `city`, optional string `unit` with default `"celsius"` and enum
`["celsius", "fahrenheit"]`. -/
def getWeatherTool : ToolDefinition :=
  { name := ("get_weather").data
  , description := ("Get the current weather for a given city").data
  , parameters :=
      [ { name := ("city").data, type := ParamType.string
        , description := ("The city name, e.g. \"San Francisco\"").data
        , required := true }
      , { name := ("unit").data, type := ParamType.string
        , description := ("Temperature unit: \"celsius\" or \"fahrenheit\"").data
        , required := false
        , defaultValue := some (Json.jstr (("celsius").data))
        , enum := some [("celsius").data, ("fahrenheit").data] } ] }

/-- Embedded from src lines 48-59: the `calculate` demo schema — required
string `expression`. -/
def calculateTool : ToolDefinition :=
  { name := ("calculate").data
  , description := ("Perform a mathematical calculation").data
  , parameters :=
      [ { name := ("expression").data, type := ParamType.string
        , description := ("A math expression to evaluate, e.g. \"2 + 2\"").data
        , required := true } ] }

/-- Embedded from src lines 60-72: the `get_time` demo schema — optional
string `timezone` with default `"UTC"`. -/
def getTimeTool : ToolDefinition :=
  { name := ("get_time").data
  , description := ("Get the current date and time for a timezone").data
  , parameters :=
      [ { name := ("timezone").data, type := ParamType.string
        , description := ("IANA timezone, e.g. \"America/New_York\"").data
        , required := false
        , defaultValue := some (Json.jstr (("UTC").data)) } ] }

/-- Embedded from src lines 27-73: the three demo schemas, in order. -/
def DEMO_TOOLS : List ToolDefinition := [getWeatherTool, calculateTool, getTimeTool]

/-- Embedded from src lines 152-165 (`handleRegisterTools`): clear the
registry, then register the three demo tools in order, with their (here
abstracted) executors. -/
def handleRegisterTools (reg : Registry) (exWeather exCalc exTime : Executor) :
    Registry :=
  registerTool
    (registerTool (registerTool (clearTools reg) getWeatherTool exWeather)
      calculateTool exCalc)
    getTimeTool exTime

/-- The `unit` parameter of `get_weather` (src lines 38-45), cited by the
validator claims. -/
def unitParam : ToolParameter :=
  { name := ("unit").data, type := ParamType.string
  , description := ("Temperature unit: \"celsius\" or \"fahrenheit\"").data
  , required := false
  , defaultValue := some (Json.jstr (("celsius").data))
  , enum := some [("celsius").data, ("fahrenheit").data] }

/-- The `city` parameter of `get_weather` (src lines 32-37): required, no
default. -/
def cityParam : ToolParameter :=
  { name := ("city").data, type := ParamType.string
  , description := ("The city name, e.g. \"San Francisco\"").data
  , required := true }

/-- The spec example input of §8: prose, a marker pair with a well-formed
`get_weather` payload, more prose. -/
def sampleSpecOutput : List Char :=
  ("pre <tool_call>\x7b\"name\":\"get_weather\",\"arguments\":\x7b\"city\":\"SF\"\x7d\x7d</tool_call> post").data

/-- The in-repo sample of `handleParseSample` (src line 222): leading
narrative, a newline, and a marker pair with a `San Francisco` payload. -/
def sampleRepoOutput : List Char :=
  ("I").data ++ [Char.ofNat 39] ++ ("ll check the weather for you.").data ++
    [Char.ofNat 10] ++
    ("<tool_call>\x7b\"name\": \"get_weather\", \"arguments\": \x7b\"city\": \"San Francisco\"\x7d\x7d</tool_call>").data

/-- A text contains a well-formed marker pair when an opening marker is
followed, further right, by a closing marker. -/
def hasMarkerPair (input : List Char) : Prop :=
  ∃ a b c, input = a ++ TOOL_OPEN ++ b ++ TOOL_CLOSE ++ c

/-- The payload enclosed by the first well-formed marker pair, when one
exists: the text between the first opening marker and the first closing
marker after it. -/
def extractRegion (input : List Char) : Option (List Char) :=
  match splitOnFirst TOOL_OPEN input with
  | none => none
  | some (_, rest) =>
    match splitOnFirst TOOL_CLOSE rest with
    | none => none
    | some (payload, _) => some payload

/-- The parallel-indexing relation between a call sequence and a result
sequence: at every index where both are defined, the names agree. -/
def namesMatchUpTo (calls : List ToolCall) (results : List ToolResult) : Prop :=
  ∀ i (hi : i < results.length) (hi2 : i < calls.length),
    (results.get ⟨i, hi⟩).toolName = (calls.get ⟨i, hi2⟩).toolName

/-- A concrete model that never proposes a tool call. -/
def quietModel : ModelFn := fun _ => Except.ok (("no call").data)

/-- A concrete model that always proposes the `get_weather` call of the spec
sample. -/
def callingModel : ModelFn := fun _ => Except.ok sampleSpecOutput

/-- The configuration used by `handleGenerate` (src lines 178-184):
`tools: DEMO_TOOLS, maxToolCalls: 3, autoExecute: true, maxTokens: 512`
(`temperature: 0.7` is forwarded to the model and has no effect here). -/
def handleGenerateConfig : ToolCallingConfig :=
  { tools := DEMO_TOOLS, maxToolCalls := 3, autoExecute := true, maxTokens := 512 }

/-- A zero-budget configuration. -/
def zeroBudgetConfig : ToolCallingConfig :=
  { tools := [], maxToolCalls := 0, autoExecute := true, maxTokens := 512 }

/-- An observation-only configuration: calls parsed but not executed. -/
def observeConfig : ToolCallingConfig :=
  { tools := [], maxToolCalls := 3, autoExecute := false, maxTokens := 512 }

/-- A concrete executor whose promise always rejects. -/
def rejectingExec : Executor := fun _ => ExecOutcome.failure (("boom").data)

/-- A schema parameter that is required yet also declares a default — the
shape that separates "absent and required" from "absent and has no
default". -/
def reqDefaultParam : ToolParameter :=
  { name := ("u").data, type := ParamType.string, description := []
  , required := true, defaultValue := some (Json.jstr (("x").data)) }

/-! ### Helper lemmas -/

theorem splitOnFirst_sound (pat : List Char) :
    ∀ text pre rest, splitOnFirst pat text = some (pre, rest) →
      text = pre ++ pat ++ rest := by
  intro text
  induction text with
  | nil =>
    intro pre rest h
    simp only [splitOnFirst] at h
    by_cases hp : pat.isPrefixOf ([] : List Char)
    · rw [if_pos hp] at h
      obtain ⟨h1, h2⟩ := Prod.mk.injEq .. ▸ Option.some.injEq .. ▸ h
      have hpat : pat = [] := by
        have := List.isPrefixOf_iff_prefix.mp hp
        exact List.prefix_nil.mp this
      simp [← h1, ← h2, hpat]
    · rw [if_neg hp] at h
      exact absurd h (by simp)
  | cons c cs ih =>
    intro pre rest h
    simp only [splitOnFirst] at h
    by_cases hp : pat.isPrefixOf (c :: cs)
    · rw [if_pos hp] at h
      obtain ⟨h1, h2⟩ := Prod.mk.injEq .. ▸ Option.some.injEq .. ▸ h
      obtain ⟨t, ht⟩ := List.isPrefixOf_iff_prefix.mp hp
      have hdrop : (c :: cs).drop pat.length = t := by
        rw [← ht]
        exact List.drop_left pat t
      rw [← h1, ← h2, hdrop, List.nil_append, ht]
    · rw [if_neg hp] at h
      obtain ⟨p, hps, hpe⟩ := Option.map_eq_some'.mp h
      obtain ⟨h1, h2⟩ := Prod.mk.injEq .. ▸ hpe
      have := ih p.1 p.2 hps
      rw [← h1, ← h2]
      simp [this]

theorem extractRegion_hasMarkerPair (input payload : List Char)
    (h : extractRegion input = some payload) : hasMarkerPair input := by
  unfold extractRegion at h
  cases h1 : splitOnFirst TOOL_OPEN input with
  | none => rw [h1] at h; exact absurd h (by simp)
  | some p1 =>
    obtain ⟨pre1, rest1⟩ := p1
    rw [h1] at h
    cases h2 : splitOnFirst TOOL_CLOSE rest1 with
    | none => simp [h2] at h
    | some p2 =>
      obtain ⟨pay2, post2⟩ := p2
      have e1 := splitOnFirst_sound TOOL_OPEN input pre1 rest1 h1
      have e2 := splitOnFirst_sound TOOL_CLOSE rest1 pay2 post2 h2
      exact ⟨pre1, pay2, post2, by rw [e1, e2]; simp [List.append_assoc]⟩

/-! ### Claims about the parser -/

/-- C4: Parsing prose, an opening marker, a `get_weather` JSON payload, a
closing marker and more prose yields a ToolCall named `get_weather` whose
`city` argument is the given city, with the marker region excised from the
returned text and the surrounding prose preserved verbatim — shown for the
spec §8 example (`SF`) and for the in-repo `handleParseSample` sample
(`San Francisco`, where the trailing prose is empty). -/
theorem parse_sample_extracts_call :
    parseToolCall sampleSpecOutput =
      { toolCall := some { toolName := ("get_weather").data
                         , arguments := [ (("city").data, Json.jstr (("SF").data)) ] }
      , text := ("pre  post").data } ∧
    parseToolCall sampleRepoOutput =
      { toolCall := some { toolName := ("get_weather").data
                         , arguments :=
                             [ (("city").data, Json.jstr (("San Francisco").data)) ] }
      , text := ("I").data ++ [Char.ofNat 39] ++
                  ("ll check the weather for you.").data } := by
  constructor
  · rfl
  · rfl

/-- C5: On any input containing no well-formed marker pair, the parser
reports no tool call and returns the input unchanged apart from trimming. -/
theorem parse_no_marker_identity (input : List Char)
    (h : ¬ hasMarkerPair input) :
    parseToolCall input = { toolCall := none, text := trim input } := by
  unfold parseToolCall
  cases h1 : splitOnFirst TOOL_OPEN input with
  | none => rfl
  | some p1 =>
    obtain ⟨pre1, rest1⟩ := p1
    cases h2 : splitOnFirst TOOL_CLOSE rest1 with
    | none => simp [h2]
    | some p2 =>
      obtain ⟨pay2, post2⟩ := p2
      exfalso
      apply h
      have e1 := splitOnFirst_sound TOOL_OPEN input pre1 rest1 h1
      have e2 := splitOnFirst_sound TOOL_CLOSE rest1 pay2 post2 h2
      exact ⟨pre1, pay2, post2, by rw [e1, e2]; simp [List.append_assoc]⟩

/-- Witness for C5 at the concrete marker-free input `hello world`. -/
theorem parse_no_marker_identity_witness :
    parseToolCall (("hello world").data) =
      { toolCall := none, text := ("hello world").data } := by
  have h : ¬ hasMarkerPair (("hello world").data) := by
    rintro ⟨a, b, c, habc⟩
    have hinf : TOOL_OPEN <:+: (("hello world").data) :=
      ⟨a, b ++ TOOL_CLOSE ++ c, by rw [habc]; simp [List.append_assoc]⟩
    exact absurd hinf (by decide)
  have := parse_no_marker_identity (("hello world").data) h
  simpa using this

/-- C6: On any input whose first well-formed marker pair encloses a payload
that does not decode to an object with a string `name`, the (total, hence
never-throwing) parser fails soft: it confirms a marker pair is present,
reports no tool call, and returns the whole input unmodified apart from
trimming — the region is kept as plain text rather than excised. -/
theorem parse_malformed_payload_fail_soft (input payload : List Char)
    (hr : extractRegion input = some payload)
    (hd : decodeToolCall payload = none) :
    hasMarkerPair input ∧
      parseToolCall input = { toolCall := none, text := trim input } := by
  refine ⟨extractRegion_hasMarkerPair input payload hr, ?_⟩
  unfold extractRegion at hr
  unfold parseToolCall
  cases h1 : splitOnFirst TOOL_OPEN input with
  | none => rfl
  | some p1 =>
    obtain ⟨pre1, rest1⟩ := p1
    rw [h1] at hr
    cases h2 : splitOnFirst TOOL_CLOSE rest1 with
    | none => simp [h2]
    | some p2 =>
      obtain ⟨pay2, post2⟩ := p2
      simp only [h2, Option.some.injEq] at hr
      simp [h2, hr, hd]

/-! ### Orchestrator helper lemmas -/

theorem runCall_toolName (reg : Registry) (tc : ToolCall) :
    (runCall reg tc).1.toolName = tc.toolName := by
  unfold runCall
  cases hl : lookupTool reg tc.toolName with
  | none => rfl
  | some r =>
    obtain ⟨schema, ex⟩ := r
    cases hv : validateArgs schema.parameters tc.arguments with
    | error e => simp [hv]
    | ok nargs =>
      cases he : ex nargs with
      | success m => simp [hv, he]
      | failure msg => simp [hv, he]

theorem runCall_trace_le_one (reg : Registry) (tc : ToolCall) :
    (runCall reg tc).2.length ≤ 1 := by
  unfold runCall
  cases hl : lookupTool reg tc.toolName with
  | none => simp
  | some r =>
    obtain ⟨schema, ex⟩ := r
    cases hv : validateArgs schema.parameters tc.arguments with
    | error e => simp [hv]
    | ok nargs =>
      cases he : ex nargs with
      | success m => simp [hv, he]
      | failure msg => simp [hv, he]

theorem orchestrate_model_error (model : ModelFn) (reg : Registry)
    (auto : Bool) (budget : Nat) (ctx : List (List Char)) (accC : List ToolCall)
    (accR : List ToolResult) (accT : List Invocation) (e : ModelError)
    (hm : model ctx = Except.error e) :
    orchestrate model reg auto budget ctx accC accR accT = Except.error e := by
  rw [orchestrate, hm]

theorem orchestrate_step_none (model : ModelFn) (reg : Registry) (auto : Bool)
    (budget : Nat) (ctx : List (List Char)) (accC : List ToolCall)
    (accR : List ToolResult) (accT : List Invocation) (out txt : List Char)
    (hm : model ctx = Except.ok out)
    (hp : parseToolCall out = { toolCall := none, text := txt }) :
    orchestrate model reg auto budget ctx accC accR accT =
      Except.ok ({ text := txt, toolCalls := accC, toolResults := accR }, accT) := by
  rw [orchestrate, hm]
  simp only [hp]

theorem orchestrate_zero_some (model : ModelFn) (reg : Registry) (auto : Bool)
    (ctx : List (List Char)) (accC : List ToolCall) (accR : List ToolResult)
    (accT : List Invocation) (out txt : List Char) (tc : ToolCall)
    (hm : model ctx = Except.ok out)
    (hp : parseToolCall out = { toolCall := some tc, text := txt }) :
    orchestrate model reg auto 0 ctx accC accR accT =
      Except.ok ({ text := txt, toolCalls := accC, toolResults := accR }, accT) := by
  rw [orchestrate, hm]
  simp only [hp]

theorem orchestrate_succ_some_auto (model : ModelFn) (reg : Registry)
    (b : Nat) (ctx : List (List Char)) (accC : List ToolCall)
    (accR : List ToolResult) (accT : List Invocation) (out txt : List Char)
    (tc : ToolCall) (hm : model ctx = Except.ok out)
    (hp : parseToolCall out = { toolCall := some tc, text := txt }) :
    orchestrate model reg true (b + 1) ctx accC accR accT =
      orchestrate model reg true b (ctx ++ [renderResult (runCall reg tc).1])
        (accC ++ [tc]) (accR ++ [(runCall reg tc).1])
        (accT ++ (runCall reg tc).2) := by
  rw [orchestrate, hm]
  simp only [hp, if_pos]

theorem orchestrate_succ_some_noauto (model : ModelFn) (reg : Registry)
    (b : Nat) (ctx : List (List Char)) (accC : List ToolCall)
    (accR : List ToolResult) (accT : List Invocation) (out txt : List Char)
    (tc : ToolCall) (hm : model ctx = Except.ok out)
    (hp : parseToolCall out = { toolCall := some tc, text := txt }) :
    orchestrate model reg false (b + 1) ctx accC accR accT =
      Except.ok
        ({ text := txt, toolCalls := accC ++ [tc], toolResults := accR }, accT) := by
  rw [orchestrate, hm]
  simp only [hp]
  rfl

theorem namesMatchUpTo_append {calls : List ToolCall} {results : List ToolResult}
    {tc : ToolCall} {tr : ToolResult} (hlen : calls.length = results.length)
    (h : namesMatchUpTo calls results) (hn : tr.toolName = tc.toolName) :
    namesMatchUpTo (calls ++ [tc]) (results ++ [tr]) := by
  intro i hi hi2
  simp only [List.get_eq_getElem]
  rcases Nat.lt_or_ge i results.length with hlt | hge
  · rw [List.getElem_append_left hlt, List.getElem_append_left (hlen ▸ hlt)]
    have := h i hlt (hlen ▸ hlt)
    simpa using this
  · have hie : i = results.length := by
      have : i < results.length + 1 := by simpa using hi
      omega
    rw [List.getElem_concat_length results tr i hie,
      List.getElem_concat_length calls tc i (by omega)]
    exact hn

theorem namesMatchUpTo_extend_calls {calls : List ToolCall}
    {results : List ToolResult} {tc : ToolCall}
    (hle : results.length ≤ calls.length)
    (h : namesMatchUpTo calls results) :
    namesMatchUpTo (calls ++ [tc]) results := by
  intro i hi hi2
  simp only [List.get_eq_getElem]
  have hlt : i < calls.length := by omega
  rw [List.getElem_append_left hlt]
  have := h i hi hlt
  simpa using this

/-- The running sequences stay aligned through the orchestration loop: from
equal-length aligned accumulators, the returned `toolResults` is at most as
long as `toolCalls`, names agree index by index, and with `autoExecute` on
the lengths are equal. -/
theorem orchestrate_aligned (model : ModelFn) (reg : Registry) (auto : Bool) :
    ∀ budget ctx accC accR accT r t,
      accC.length = accR.length →
      namesMatchUpTo accC accR →
      orchestrate model reg auto budget ctx accC accR accT = Except.ok (r, t) →
      r.toolResults.length ≤ r.toolCalls.length ∧
        namesMatchUpTo r.toolCalls r.toolResults ∧
        (auto = true → r.toolCalls.length = r.toolResults.length) := by
  intro budget
  induction budget with
  | zero =>
    intro ctx accC accR accT r t hlen hmatch hrun
    cases hm : model ctx with
    | error e =>
      rw [orchestrate_model_error model reg auto 0 ctx accC accR accT e hm] at hrun
      exact absurd hrun (by simp)
    | ok out =>
      cases hp : parseToolCall out with
      | mk otc txt =>
        cases otc with
        | none =>
          rw [orchestrate_step_none model reg auto 0 ctx accC accR accT out txt hm hp]
            at hrun
          simp only [Except.ok.injEq, Prod.mk.injEq] at hrun
          obtain ⟨hr, ht⟩ := hrun
          rw [← hr]
          exact ⟨Nat.le_of_eq hlen.symm, hmatch, fun _ => hlen⟩
        | some tc =>
          rw [orchestrate_zero_some model reg auto ctx accC accR accT out txt tc hm hp]
            at hrun
          simp only [Except.ok.injEq, Prod.mk.injEq] at hrun
          obtain ⟨hr, ht⟩ := hrun
          rw [← hr]
          exact ⟨Nat.le_of_eq hlen.symm, hmatch, fun _ => hlen⟩
  | succ b ih =>
    intro ctx accC accR accT r t hlen hmatch hrun
    cases hm : model ctx with
    | error e =>
      rw [orchestrate_model_error model reg auto (b + 1) ctx accC accR accT e hm]
        at hrun
      exact absurd hrun (by simp)
    | ok out =>
      cases hp : parseToolCall out with
      | mk otc txt =>
        cases otc with
        | none =>
          rw [orchestrate_step_none model reg auto (b + 1) ctx accC accR accT out txt
            hm hp] at hrun
          simp only [Except.ok.injEq, Prod.mk.injEq] at hrun
          obtain ⟨hr, ht⟩ := hrun
          rw [← hr]
          exact ⟨Nat.le_of_eq hlen.symm, hmatch, fun _ => hlen⟩
        | some tc =>
          cases auto with
          | true =>
            rw [orchestrate_succ_some_auto model reg b ctx accC accR accT out txt tc
              hm hp] at hrun
            exact ih _ _ _ _ _ _ (by simp [hlen])
              (namesMatchUpTo_append hlen hmatch (runCall_toolName reg tc))
              hrun
          | false =>
            rw [orchestrate_succ_some_noauto model reg b ctx accC accR accT out txt tc
              hm hp] at hrun
            simp only [Except.ok.injEq, Prod.mk.injEq] at hrun
            obtain ⟨hr, ht⟩ := hrun
            rw [← hr]
            refine ⟨by simp [← hlen],
              namesMatchUpTo_extend_calls (Nat.le_of_eq hlen.symm) hmatch, ?_⟩
            intro hcontra
            exact absurd hcontra (by simp)

/-- With a zero budget the orchestrator returns the accumulators untouched:
in particular, starting from empty ones, no call is recorded and no executor
is ever invoked. -/
theorem orchestrate_zero_shape (model : ModelFn) (reg : Registry) (auto : Bool)
    (ctx : List (List Char)) (accC : List ToolCall) (accR : List ToolResult)
    (accT : List Invocation) (r : ToolCallingResult) (t : List Invocation)
    (hrun : orchestrate model reg auto 0 ctx accC accR accT = Except.ok (r, t)) :
    r.toolCalls = accC ∧ r.toolResults = accR ∧ t = accT := by
  cases hm : model ctx with
  | error e =>
    rw [orchestrate_model_error model reg auto 0 ctx accC accR accT e hm] at hrun
    exact absurd hrun (by simp)
  | ok out =>
    cases hp : parseToolCall out with
    | mk otc txt =>
      cases otc with
      | none =>
        rw [orchestrate_step_none model reg auto 0 ctx accC accR accT out txt hm hp]
          at hrun
        simp only [Except.ok.injEq, Prod.mk.injEq] at hrun
        obtain ⟨hr, ht⟩ := hrun
        rw [← hr, ← ht]
        exact ⟨rfl, rfl, rfl⟩
      | some tc =>
        rw [orchestrate_zero_some model reg auto ctx accC accR accT out txt tc hm hp]
          at hrun
        simp only [Except.ok.injEq, Prod.mk.injEq] at hrun
        obtain ⟨hr, ht⟩ := hrun
        rw [← hr, ← ht]
        exact ⟨rfl, rfl, rfl⟩

/-- When the model never fails, the orchestrator always returns a result, and
the number of executor invocations it adds is bounded by the budget. -/
theorem orchestrate_ok (model : ModelFn) (reg : Registry) (auto : Bool)
    (hmodel : ∀ c, (model c).isOk = true) :
    ∀ budget ctx accC accR accT, ∃ r t,
      orchestrate model reg auto budget ctx accC accR accT = Except.ok (r, t) ∧
        t.length ≤ accT.length + budget := by
  intro budget
  induction budget with
  | zero =>
    intro ctx accC accR accT
    cases hm : model ctx with
    | error e =>
      have hok := hmodel ctx
      rw [hm] at hok
      exact absurd hok (by simp [Except.isOk, Except.toBool])
    | ok out =>
      cases hp : parseToolCall out with
      | mk otc txt =>
        cases otc with
        | none =>
          exact ⟨_, accT,
            orchestrate_step_none model reg auto 0 ctx accC accR accT out txt hm hp,
            by omega⟩
        | some tc =>
          exact ⟨_, accT,
            orchestrate_zero_some model reg auto ctx accC accR accT out txt tc hm hp,
            by omega⟩
  | succ b ih =>
    intro ctx accC accR accT
    cases hm : model ctx with
    | error e =>
      have hok := hmodel ctx
      rw [hm] at hok
      exact absurd hok (by simp [Except.isOk, Except.toBool])
    | ok out =>
      cases hp : parseToolCall out with
      | mk otc txt =>
        cases otc with
        | none =>
          exact ⟨_, accT,
            orchestrate_step_none model reg auto (b + 1) ctx accC accR accT out txt
              hm hp,
            by omega⟩
        | some tc =>
          cases auto with
          | true =>
            obtain ⟨r, t, hrun, hle⟩ := ih
              (ctx ++ [renderResult (runCall reg tc).1]) (accC ++ [tc])
              (accR ++ [(runCall reg tc).1]) (accT ++ (runCall reg tc).2)
            refine ⟨r, t, ?_, ?_⟩
            · rw [orchestrate_succ_some_auto model reg b ctx accC accR accT out txt
                tc hm hp]
              exact hrun
            · have htr := runCall_trace_le_one reg tc
              have hta : (accT ++ (runCall reg tc).2).length ≤ accT.length + 1 := by
                simp only [List.length_append]
                omega
              omega
          | false =>
            exact ⟨_, accT,
              orchestrate_succ_some_noauto model reg b ctx accC accR accT out txt tc
                hm hp,
              by omega⟩

/-! ### Validator helper lemmas -/

theorem checkValue_ne_missing (p : ToolParameter) (v : Json) (q : List Char) :
    checkValue p v ≠ Except.error (ValidationError.MissingRequiredArgument q) := by
  unfold checkValue
  cases he : p.enum with
  | none =>
    cases hc : coerce p.type v with
    | none => simp
    | some v2 => simp
  | some allowed =>
    cases hok : enumOk allowed v with
    | true =>
      cases hc : coerce p.type v with
      | none => simp [hok]
      | some v2 => simp [hok]
    | false => simp [hok]

theorem validateParam_missing_iff (p : ToolParameter)
    (args : List (List Char × Json)) (q : List Char) :
    validateParam p args =
        Except.error (ValidationError.MissingRequiredArgument q) ↔
      q = p.name ∧ lookupArg args p.name = none ∧ p.required = true := by
  unfold validateParam
  cases hl : lookupArg args p.name with
  | some v => simp [checkValue_ne_missing p v q]
  | none =>
    cases hreq : p.required with
    | true => simp [eq_comm]
    | false =>
      cases hd : p.defaultValue with
      | some d => simp [checkValue_ne_missing p d q]
      | none => simp

theorem validateArgs_error_iff (params : List ToolParameter)
    (args : List (List Char × Json)) (er : ValidationError) :
    validateArgs params args = Except.error er ↔
      validateDeclared params args = Except.error er := by
  unfold validateArgs
  cases h : validateDeclared params args with
  | error e2 => simp [Except.map]
  | ok res => simp [Except.map]

theorem validateDeclared_missing_mem (params : List ToolParameter)
    (args : List (List Char × Json)) (q : List Char)
    (h : validateDeclared params args =
      Except.error (ValidationError.MissingRequiredArgument q)) :
    ∃ r ∈ params, r.name = q ∧ r.required = true ∧
      lookupArg args r.name = none := by
  induction params with
  | nil => exact absurd h (by simp [validateDeclared])
  | cons p ps ih =>
    rw [validateDeclared] at h
    cases hvp : validateParam p args with
    | error e2 =>
      rw [hvp] at h
      have he2 : e2 = ValidationError.MissingRequiredArgument q :=
        Except.error.inj h
      rw [he2] at hvp
      obtain ⟨hq, hl, hreq⟩ := (validateParam_missing_iff p args q).mp hvp
      exact ⟨p, List.mem_cons_self p ps, hq.symm, hreq, hl⟩
    | ok o =>
      rw [hvp] at h
      cases o with
      | none =>
        obtain ⟨r, hr, hrest⟩ := ih h
        exact ⟨r, List.mem_cons_of_mem p hr, hrest⟩
      | some kv =>
        have hd : validateDeclared ps args =
            Except.error (ValidationError.MissingRequiredArgument q) := by
          cases hds : validateDeclared ps args with
          | error e3 =>
            rw [hds] at h
            have he3 : e3 = ValidationError.MissingRequiredArgument q := by
              simpa [Except.map] using h
            rw [he3]
          | ok res =>
            rw [hds] at h
            exact absurd h (by simp [Except.map])
        obtain ⟨r, hr, hrest⟩ := ih hd
        exact ⟨r, List.mem_cons_of_mem p hr, hrest⟩

/-! ### Claims about the orchestrator -/

/-- C1, counterexample: with `autoExecute: false` and a model that proposes a
call, `generateWithTools` returns one toolCall and zero toolResults, so the
two sequences do not have equal length as the claim universally states. -/
theorem autoExecute_off_length_mismatch :
    (generateWithTools callingModel [] (("hi").data) observeConfig).map
        (fun r => (r.1.toolCalls.length, r.1.toolResults.length)) =
      Except.ok (1, 0) ∧ (1 : Nat) ≠ 0 := by
  exact ⟨rfl, by decide⟩

/-- C1, amended: in every orchestration result, `toolResults` is
parallel-indexed with `toolCalls` as a prefix — it is never longer, and at
every index where both are defined the tool names agree — and when
`autoExecute` is `true` the two sequences have equal length. -/
theorem toolResults_prefix_aligned (model : ModelFn) (reg : Registry)
    (prompt : List Char) (config : ToolCallingConfig) (r : ToolCallingResult)
    (t : List Invocation)
    (hrun : generateWithTools model reg prompt config = Except.ok (r, t)) :
    r.toolResults.length ≤ r.toolCalls.length ∧
      namesMatchUpTo r.toolCalls r.toolResults ∧
      (config.autoExecute = true → r.toolCalls.length = r.toolResults.length) := by
  exact orchestrate_aligned model reg config.autoExecute config.maxToolCalls
    [renderTools config.tools, prompt] [] [] [] r t rfl
    (fun i hi hi2 => absurd hi (by simp)) hrun

/-- Witness for C1 (amended) at a model that proposes no call. -/
theorem toolResults_prefix_aligned_witness :
    (({ text := ("no call").data, toolCalls := [], toolResults := [] }
        : ToolCallingResult).toolResults.length ≤
      ({ text := ("no call").data, toolCalls := [], toolResults := [] }
        : ToolCallingResult).toolCalls.length) ∧
    namesMatchUpTo
      ({ text := ("no call").data, toolCalls := [], toolResults := [] }
        : ToolCallingResult).toolCalls
      ({ text := ("no call").data, toolCalls := [], toolResults := [] }
        : ToolCallingResult).toolResults ∧
    (handleGenerateConfig.autoExecute = true →
      ({ text := ("no call").data, toolCalls := [], toolResults := [] }
        : ToolCallingResult).toolCalls.length =
      ({ text := ("no call").data, toolCalls := [], toolResults := [] }
        : ToolCallingResult).toolResults.length) := by
  exact toolResults_prefix_aligned quietModel [] (("hi").data) handleGenerateConfig
    { text := ("no call").data, toolCalls := [], toolResults := [] } [] rfl

/-- C2: with `maxToolCalls = 0` the orchestrator never invokes any registered
executor (the invocation trace is empty) and returns empty `toolCalls`, even
when the model keeps proposing calls; and whenever the model itself never
fails, the orchestrator still returns a result — with at most
`maxToolCalls` executor invocations — rather than failing. -/
theorem budget_zero_no_executor (model : ModelFn) (reg : Registry)
    (prompt : List Char) (config : ToolCallingConfig) :
    (config.maxToolCalls = 0 →
      ∀ r t, generateWithTools model reg prompt config = Except.ok (r, t) →
        r.toolCalls = [] ∧ r.toolResults = [] ∧ t = []) ∧
    ((∀ c, (model c).isOk = true) →
      ∃ r t, generateWithTools model reg prompt config = Except.ok (r, t) ∧
        t.length ≤ config.maxToolCalls) := by
  constructor
  · intro h0 r t hrun
    unfold generateWithTools at hrun
    rw [h0] at hrun
    exact orchestrate_zero_shape model reg config.autoExecute
      [renderTools config.tools, prompt] [] [] [] r t hrun
  · intro hmodel
    obtain ⟨r, t, hrun, hle⟩ := orchestrate_ok model reg config.autoExecute hmodel
      config.maxToolCalls [renderTools config.tools, prompt] [] [] []
    exact ⟨r, t, hrun, by simpa using hle⟩

/-- Witness for C2: a model that always proposes a call, run with a zero
budget — no executor invocation, empty toolCalls — and the totality part at
the same inputs. -/
theorem budget_zero_no_executor_witness :
    (({ text := ("pre  post").data, toolCalls := [], toolResults := [] }
        : ToolCallingResult).toolCalls = [] ∧
      ({ text := ("pre  post").data, toolCalls := [], toolResults := [] }
        : ToolCallingResult).toolResults = [] ∧
      ([] : List Invocation) = []) ∧
    (∃ r t, generateWithTools callingModel [] (("hi").data) zeroBudgetConfig =
        Except.ok (r, t) ∧ t.length ≤ zeroBudgetConfig.maxToolCalls) := by
  refine ⟨?_, ?_⟩
  · exact (budget_zero_no_executor callingModel [] (("hi").data)
      zeroBudgetConfig).1 rfl
      { text := ("pre  post").data, toolCalls := [], toolResults := [] } [] rfl
  · exact (budget_zero_no_executor callingModel [] (("hi").data)
      zeroBudgetConfig).2 (fun c => rfl)

/-- C3: only a model-invocation failure terminates the orchestration
abnormally — if the model never fails the orchestrator returns a result, and
a failing first model call propagates exactly that error — while a registered
executor that rejects yields a ToolResult with `success = false` and a
non-empty `error` carrying the rejection message (the executor was invoked,
and nothing is thrown). -/
theorem throws_iff_model_failure (model : ModelFn) (reg : Registry)
    (prompt : List Char) (config : ToolCallingConfig) (e : ModelError) :
    ((∀ c, (model c).isOk = true) →
      (generateWithTools model reg prompt config).isOk = true) ∧
    (model [renderTools config.tools, prompt] = Except.error e →
      generateWithTools model reg prompt config = Except.error e) ∧
    (∀ (reg2 : Registry) (tc : ToolCall) (schema : ToolDefinition)
        (ex : Executor) (nargs : List (List Char × Json)) (msg : List Char),
      lookupTool reg2 tc.toolName = some (schema, ex) →
      validateArgs schema.parameters tc.arguments = Except.ok nargs →
      ex nargs = ExecOutcome.failure msg → msg ≠ [] →
      (runCall reg2 tc).1.success = false ∧
        (runCall reg2 tc).1.error = some msg ∧
        (runCall reg2 tc).2 = [{ toolName := tc.toolName, arguments := nargs }]) := by
  refine ⟨?_, ?_, ?_⟩
  · intro hmodel
    obtain ⟨r, t, hrun, hle⟩ := orchestrate_ok model reg config.autoExecute hmodel
      config.maxToolCalls [renderTools config.tools, prompt] [] [] []
    unfold generateWithTools
    rw [hrun]
    rfl
  · intro hm
    unfold generateWithTools
    exact orchestrate_model_error model reg config.autoExecute config.maxToolCalls
      [renderTools config.tools, prompt] [] [] [] e hm
  · intro reg2 tc schema ex nargs msg hl hv he hmsg
    unfold runCall
    simp [hl, hv, he]

/-- Witness for C3: a total model, and a concrete registry whose `calculate`
executor rejects with message `boom`. -/
theorem throws_iff_model_failure_witness :
    (generateWithTools quietModel [] (("hi").data) handleGenerateConfig).isOk
        = true ∧
    ((runCall [(calculateTool, rejectingExec)]
        { toolName := ("calculate").data
        , arguments := [(("expression").data, Json.jstr (("2+2").data))] }).1.success
        = false ∧
      (runCall [(calculateTool, rejectingExec)]
        { toolName := ("calculate").data
        , arguments := [(("expression").data, Json.jstr (("2+2").data))] }).1.error
        = some (("boom").data) ∧
      (runCall [(calculateTool, rejectingExec)]
        { toolName := ("calculate").data
        , arguments := [(("expression").data, Json.jstr (("2+2").data))] }).2
        = [{ toolName := ("calculate").data
           , arguments := [(("expression").data, Json.jstr (("2+2").data))] }]) := by
  refine ⟨?_, ?_⟩
  · exact (throws_iff_model_failure quietModel [] (("hi").data)
      handleGenerateConfig (ModelError.failure [])).1 (fun c => rfl)
  · exact (throws_iff_model_failure quietModel [] (("hi").data)
      handleGenerateConfig (ModelError.failure [])).2.2
      [(calculateTool, rejectingExec)]
      { toolName := ("calculate").data
      , arguments := [(("expression").data, Json.jstr (("2+2").data))] }
      calculateTool rejectingExec
      [(("expression").data, Json.jstr (("2+2").data))] (("boom").data)
      rfl rfl rfl (by decide)

/-! ### Claims about the validator -/

/-- C7, counterexample: a required parameter that also declares a default is
still rejected with `MissingRequiredArgument` when absent — the validator
fails even though the parameter has a default, contradicting the claim that
the failure occurs exactly when the parameter "is absent and has no
default". -/
theorem required_default_still_fails :
    validateArgs [reqDefaultParam] [] =
        Except.error (ValidationError.MissingRequiredArgument (("u").data)) ∧
      reqDefaultParam.defaultValue = some (Json.jstr (("x").data)) ∧
      reqDefaultParam.required = true := by
  exact ⟨rfl, rfl, rfl⟩

/-- C7, amended: the per-parameter check fails with
`MissingRequiredArgument(p)` exactly when `p` is declared required and is
absent from the arguments, regardless of any declared default; when a
non-required parameter is absent its declared default (if any) is
substituted and then checked, and with no default it stays absent; any
whole-schema `MissingRequiredArgument(q)` failure names a required declared
parameter absent from the arguments; and validating `{}` against the
`get_weather` `unit` parameter succeeds with the default `celsius` in the
normalized result. -/
theorem missing_required_characterization (p : ToolParameter)
    (args : List (List Char × Json)) (params : List ToolParameter)
    (d : Json) (q : List Char) :
    (validateParam p args =
        Except.error (ValidationError.MissingRequiredArgument q) ↔
      q = p.name ∧ lookupArg args p.name = none ∧ p.required = true) ∧
    (p.required = false → lookupArg args p.name = none →
      p.defaultValue = some d → validateParam p args = checkValue p d) ∧
    (p.required = false → lookupArg args p.name = none →
      p.defaultValue = none → validateParam p args = Except.ok none) ∧
    (validateArgs params args =
        Except.error (ValidationError.MissingRequiredArgument q) →
      ∃ r ∈ params, r.name = q ∧ r.required = true ∧
        lookupArg args r.name = none) ∧
    validateArgs [unitParam] [] =
      Except.ok [((("unit").data), Json.jstr (("celsius").data))] := by
  refine ⟨validateParam_missing_iff p args q, ?_, ?_, ?_, rfl⟩
  · intro hreq hl hd
    unfold validateParam
    rw [hl, hreq, hd]
    rfl
  · intro hreq hl hd
    unfold validateParam
    rw [hl, hreq, hd]
    rfl
  · intro hva
    exact validateDeclared_missing_mem params args q
      ((validateArgs_error_iff params args _).mp hva)

/-- Witness for C7 (amended): the `unit` parameter absent from `{}` gets its
default substituted and checked, and the whole-schema validation of `{}`
against `[unitParam]` normalizes to `unit = celsius`. -/
theorem missing_required_characterization_witness :
    validateParam unitParam [] =
        checkValue unitParam (Json.jstr (("celsius").data)) ∧
      validateArgs [unitParam] [] =
        Except.ok [((("unit").data), Json.jstr (("celsius").data))] := by
  refine ⟨?_, ?_⟩
  · exact (missing_required_characterization unitParam [] [unitParam]
      (Json.jstr (("celsius").data)) (("unit").data)).2.1 rfl rfl rfl
  · exact (missing_required_characterization unitParam [] [unitParam]
      (Json.jstr (("celsius").data)) (("unit").data)).2.2.2.2

/-- C8: with a declared enum, a provided value — and equally a defaulted
value — passes only when it is a string equal, case-sensitively, to one of
the enum members; otherwise validation of that parameter fails with
`InvalidEnumValue(name, value, allowed)`.  In particular `unit = "kelvin"`
against `["celsius","fahrenheit"]` fails with `InvalidEnumValue`, and so does
the case-variant `"Celsius"`. -/
theorem enum_case_sensitive_membership (p : ToolParameter)
    (args : List (List Char × Json)) (v : Json) (allowed : List (List Char)) :
    (p.enum = some allowed → lookupArg args p.name = some v →
      enumOk allowed v = false →
      validateParam p args =
        Except.error (ValidationError.InvalidEnumValue p.name v allowed)) ∧
    (p.enum = some allowed → p.required = false →
      lookupArg args p.name = none → p.defaultValue = some v →
      enumOk allowed v = false →
      validateParam p args =
        Except.error (ValidationError.InvalidEnumValue p.name v allowed)) ∧
    (p.enum = some allowed → lookupArg args p.name = some v →
      (validateParam p args).isOk = true → enumOk allowed v = true) ∧
    (enumOk allowed v = true ↔ ∃ s, v = Json.jstr s ∧ s ∈ allowed) ∧
    validateArgs [unitParam] [((("unit").data), Json.jstr (("kelvin").data))] =
      Except.error (ValidationError.InvalidEnumValue (("unit").data)
        (Json.jstr (("kelvin").data)) [("celsius").data, ("fahrenheit").data]) ∧
    validateArgs [unitParam] [((("unit").data), Json.jstr (("Celsius").data))] =
      Except.error (ValidationError.InvalidEnumValue (("unit").data)
        (Json.jstr (("Celsius").data)) [("celsius").data, ("fahrenheit").data]) := by
  refine ⟨?_, ?_, ?_, ?_, rfl, rfl⟩
  · intro he hl hok
    unfold validateParam checkValue
    simp [hl, he, hok]
  · intro he hreq hl hd hok
    unfold validateParam checkValue
    simp [hl, hreq, hd, he, hok]
  · intro he hl hisok
    cases hok : enumOk allowed v with
    | true => rfl
    | false =>
      unfold validateParam checkValue at hisok
      simp [hl, he, hok, Except.isOk, Except.toBool] at hisok
  · cases v with
    | jstr s => simp [enumOk, List.contains_eq_any_beq, List.any_eq_true]
    | jnull => simp [enumOk]
    | jbool b => simp [enumOk]
    | jnum n => simp [enumOk]
    | jarr xs => simp [enumOk]
    | jobj fs => simp [enumOk]

/-- Witness for C8: `unit = "kelvin"` against the `get_weather` `unit`
parameter fails per-parameter with `InvalidEnumValue`. -/
theorem enum_case_sensitive_membership_witness :
    validateParam unitParam [((("unit").data), Json.jstr (("kelvin").data))] =
      Except.error (ValidationError.InvalidEnumValue (("unit").data)
        (Json.jstr (("kelvin").data))
        [("celsius").data, ("fahrenheit").data]) := by
  exact (enum_case_sensitive_membership unitParam
    [((("unit").data), Json.jstr (("kelvin").data))]
    (Json.jstr (("kelvin").data))
    [("celsius").data, ("fahrenheit").data]).1 rfl rfl rfl

/-! ### Claims about the registry -/

theorem find?_name_filter (l : List (ToolDefinition × Executor))
    (n m : List Char) (hnm : n ≠ m) :
    (List.find? (fun r => decide (r.1.name = n))
        (l.filter (fun r => !(decide (r.1.name = m))))).isSome =
      (List.find? (fun r => decide (r.1.name = n)) l).isSome := by
  induction l with
  | nil => rfl
  | cons r rs ih =>
    by_cases hr : r.1.name = m
    · have hrn : ¬ (r.1.name = n) := by rw [hr]; exact fun h => hnm h.symm
      rw [List.filter_cons_of_neg (by simp [hr]),
        List.find?_cons_of_neg rs (by simp [hrn]), ih]
    · rw [List.filter_cons_of_pos (by simp [hr])]
      by_cases hn : r.1.name = n
      · rw [List.find?_cons_of_pos _ (by simp [hn]),
          List.find?_cons_of_pos rs (by simp [hn])]
      · rw [List.find?_cons_of_neg _ (by simp [hn]),
          List.find?_cons_of_neg rs (by simp [hn]), ih]

theorem lookupTool_registerTool_isSome (reg : Registry) (sch : ToolDefinition)
    (ex : Executor) (n : List Char) :
    (lookupTool (registerTool reg sch ex) n).isSome = true ↔
      n = sch.name ∨ (lookupTool reg n).isSome = true := by
  unfold lookupTool registerTool
  by_cases h : sch.name = n
  · simp [List.find?_cons, h]
  · have hnm : n ≠ sch.name := fun hc => h hc.symm
    rw [List.find?_cons]
    have hd : decide (sch.name = n) = false := by simp [h]
    simp only [hd]
    rw [find?_name_filter reg n sch.name hnm]
    simp [hnm]

theorem lookupTool_foldl_isSome (schemas : List (ToolDefinition × Executor)) :
    ∀ (reg0 : Registry) (n : List Char),
      (lookupTool (schemas.foldl (fun r s => registerTool r s.1 s.2) reg0)
          n).isSome = true ↔
        n ∈ schemas.map (fun s => s.1.name) ∨
          (lookupTool reg0 n).isSome = true := by
  induction schemas with
  | nil => intro reg0 n; simp
  | cons s ss ih =>
    intro reg0 n
    rw [List.foldl_cons, ih (registerTool reg0 s.1 s.2) n,
      lookupTool_registerTool_isSome reg0 s.1 s.2 n]
    simp only [List.map_cons, List.mem_cons]
    tauto

/-- C9: after `clearTools()` followed by registering any sequence of schemas
with distinct names, lookup succeeds for exactly the registered names — no
matter what the registry held before — and re-registering a name simply
replaces the entry (the new registration wins; nothing is raised, which in
this embedding is expressed by `registerTool` being a total function whose
result resolves every lookup of that name to the new entry). -/
theorem clear_then_register_exact_lookups (reg : Registry)
    (schemas : List (ToolDefinition × Executor)) (sch : ToolDefinition)
    (ex : Executor) (n : List Char) :
    ((schemas.map (fun s => s.1.name)).Nodup →
      ((lookupTool
          (schemas.foldl (fun r s => registerTool r s.1 s.2) (clearTools reg))
          n).isSome = true ↔
        n ∈ schemas.map (fun s => s.1.name))) ∧
    lookupTool (registerTool reg sch ex) sch.name = some (sch, ex) := by
  constructor
  · intro _
    rw [lookupTool_foldl_isSome schemas (clearTools reg) n]
    simp [lookupTool, clearTools]
  · unfold lookupTool registerTool
    simp [List.find?_cons]

/-- Witness for C9: the `handleRegisterTools` pattern — clear, then register
the three demo tools — over a dirty prior registry resolves exactly the demo
names; and re-registering `calculate` replaces its executor. -/
theorem clear_then_register_exact_lookups_witness :
    (((lookupTool
        (handleRegisterTools [(calculateTool, rejectingExec)] rejectingExec
          (mockCalculateExec (fun _ => none)) rejectingExec)
        (("calculate").data)).isSome = true) ∧
      ¬ ((lookupTool
        (handleRegisterTools [(calculateTool, rejectingExec)] rejectingExec
          (mockCalculateExec (fun _ => none)) rejectingExec)
        (("missing_tool").data)).isSome = true)) ∧
    lookupTool (registerTool [(calculateTool, rejectingExec)] calculateTool
        (mockCalculateExec (fun _ => none)))
      calculateTool.name = some (calculateTool, mockCalculateExec (fun _ => none)) := by
  refine ⟨⟨?_, ?_⟩, ?_⟩
  · exact (clear_then_register_exact_lookups [(calculateTool, rejectingExec)]
      [(getWeatherTool, rejectingExec),
       (calculateTool, mockCalculateExec (fun _ => none)),
       (getTimeTool, rejectingExec)]
      calculateTool rejectingExec (("calculate").data)).1 (by decide) |>.mpr
      (by decide)
  · intro hcontra
    have hmem := ((clear_then_register_exact_lookups
      [(calculateTool, rejectingExec)]
      [(getWeatherTool, rejectingExec),
       (calculateTool, mockCalculateExec (fun _ => none)),
       (getTimeTool, rejectingExec)]
      calculateTool rejectingExec (("missing_tool").data)).1 (by decide)).mp
      hcontra
    exact absurd hmem (by decide)
  · exact (clear_then_register_exact_lookups [(calculateTool, rejectingExec)]
      [] calculateTool (mockCalculateExec (fun _ => none))
      (("calculate").data)).2

/-! ### Claim about the mock calculator executor -/

/-- C10: `mockCalculate` always resolves — its executor outcome is a success
for every arguments mapping and every behaviour of the opaque evaluation,
because every throw inside its body is caught.  An evaluation failure on a
string expression, and equally a truthy non-string `expression` value (whose
`replace` call throws inside the `try`), resolve to the mapping
`{ expression, error: "Could not evaluate expression" }`; consequently a
validated `calculate` call executed through the ToolExecutor always yields a
ToolResult with `success = true`, the failure branch being unreachable for
this tool. -/
theorem mockCalculate_never_rejects (evalFn : List Char → Option Json)
    (args nargs : List (List Char × Json)) (s : List Char) (v : Json) :
    mockCalculateExec evalFn args =
        ExecOutcome.success (mockCalculate evalFn args) ∧
    (lookupArg args (("expression").data) = some (Json.jstr s) → s ≠ [] →
      evalFn (s.filter isCalcChar) = none →
      mockCalculate evalFn args =
        [((("expression").data), Json.jstr s),
         ((("error").data),
          Json.jstr (("Could not evaluate expression").data))]) ∧
    (lookupArg args (("expression").data) = some v → jsTruthy v = true →
      (∀ s2, v ≠ Json.jstr s2) →
      mockCalculate evalFn args =
        [((("expression").data), v),
         ((("error").data),
          Json.jstr (("Could not evaluate expression").data))]) ∧
    (validateArgs calculateTool.parameters args = Except.ok nargs →
      (runCall [(calculateTool, mockCalculateExec evalFn)]
          { toolName := ("calculate").data, arguments := args }).1.success
        = true) := by
  refine ⟨rfl, ?_, ?_, ?_⟩
  · intro hl hs he
    unfold mockCalculate
    rw [hl]
    simp [jsTruthy, hs, he]
  · intro hl htruthy hns
    unfold mockCalculate
    rw [hl]
    cases v with
    | jstr s2 => exact absurd rfl (hns s2)
    | jnull => exact absurd htruthy (by simp [jsTruthy])
    | jbool b =>
      cases b with
      | true => simp [jsTruthy]
      | false => exact absurd htruthy (by simp [jsTruthy])
    | jnum nn =>
      by_cases hz : nn = 0
      · exact absurd htruthy (by simp [jsTruthy, hz])
      · simp [jsTruthy, hz]
    | jarr xs => simp [jsTruthy]
    | jobj fs => simp [jsTruthy]
  · intro hv
    unfold runCall
    have hlt : lookupTool [(calculateTool, mockCalculateExec evalFn)]
        (("calculate").data) = some (calculateTool, mockCalculateExec evalFn) := by
      rfl
    simp [hlt, hv, mockCalculateExec]

/-- Witness for C10: a failing evaluator on `2+2` still yields a successful
ToolResult, and the error mapping for an unevaluable expression. -/
theorem mockCalculate_never_rejects_witness :
    (runCall [(calculateTool, mockCalculateExec (fun _ => none))]
        { toolName := ("calculate").data
        , arguments :=
            [((("expression").data), Json.jstr (("2+2").data))] }).1.success
      = true ∧
    mockCalculate (fun _ => none)
        [((("expression").data), Json.jstr (("2+2").data))] =
      [((("expression").data), Json.jstr (("2+2").data)),
       ((("error").data),
        Json.jstr (("Could not evaluate expression").data))] := by
  refine ⟨?_, ?_⟩
  · exact (mockCalculate_never_rejects (fun _ => none)
      [((("expression").data), Json.jstr (("2+2").data))]
      [((("expression").data), Json.jstr (("2+2").data))]
      (("2+2").data) Json.jnull).2.2.2 rfl
  · exact (mockCalculate_never_rejects (fun _ => none)
      [((("expression").data), Json.jstr (("2+2").data))]
      [((("expression").data), Json.jstr (("2+2").data))]
      (("2+2").data) Json.jnull).2.1 rfl (by decide) rfl

/-- Witness for C6 at a concrete input whose payload is not JSON. -/
theorem parse_malformed_payload_fail_soft_witness :
    hasMarkerPair (("x <tool_call>notjson</tool_call> y").data) ∧
      parseToolCall (("x <tool_call>notjson</tool_call> y").data) =
        { toolCall := none
        , text := ("x <tool_call>notjson</tool_call> y").data } := by
  have := parse_malformed_payload_fail_soft
    (("x <tool_call>notjson</tool_call> y").data) (("notjson").data)
    (by rfl) (by rfl)
  simpa using this

end ToolCalling
